import Mathlib

/-!
# transcodefs: path resolution and format decision

A shallow embedding of `transcodefs.c`.

* C strings are NUL-free `List Char`; a pointer into a string is an index.
* The backing store and the GStreamer discoverer are oracles collected in `Env`.
* `errno`, the global `data` and a log of the external calls issued are carried in `Proc`.
* Four behaviours the C standard leaves undefined are made explicit as `Fault`:
  a `strcpy` through a NULL destination, a read of an automatic variable that was
  never assigned, a call on a discoverer handle whose last reference was dropped, and
  a `strcpy` past the end of the buffer that `translate_path` allocated.
* The buffer of `translate_path` holds `translate_path_alloc` bytes, and the handlers
  that rewrite it in place (getattr, open, readlink) fault when the rewritten path and
  its NUL do not fit.  The buffers supplied by the caller (`d_name`, the link buffer)
  are not bounded.  `malloc` is taken to succeed.
* `syslog`, `close`, `closedir`, `free` and the discoverer are taken to leave `errno` as
  they found it, and `readdir` to reach the end of the directory without an error.
-/

namespace TranscodeFS

/-! ## Undefined behaviour and strings -/

/-- Behaviours that C leaves undefined and that this code can reach. -/
inductive Fault where
  | null_pointer_write
  | uninitialized_read
  | released_handle
  | buffer_overflow
deriving DecidableEq, Repr

/-- Index of the last occurrence of `c` in `s` (`strrchr`); `none` is the NULL result. -/
def strrchr : List Char → Char → Option Nat
  | [], _ => none
  | x :: xs, c =>
    match strrchr xs c with
    | some i => some (i + 1)
    | none => if x = c then some 0 else none

/-- Result of `strcpy(s + i, src)` seen on the whole string `s`. -/
def strcpy_at (s : List Char) (i : Nat) (src : List Char) : List Char :=
  s.take i ++ src

/-- Test `strcmp(s + i, lit) == 0`. -/
def strcmp_at_eq (s : List Char) (i : Nat) (lit : List Char) : Bool :=
  decide (s.drop i = lit)

/-- Call `strcpy(ptr, src)` where `ptr` points into `path`; a NULL `ptr` is a fault. -/
def strcpy_ptr (path : List Char) (ptr : Option Nat) (src : List Char) :
    Except Fault (List Char) :=
  match ptr with
  | some i => .ok (strcpy_at path i src)
  | none => .error .null_pointer_write

/-- Test `ptr && strcmp(ptr, lit) == 0`. -/
def ptr_strcmp_eq (path : List Char) (ptr : Option Nat) (lit : List Char) : Bool :=
  match ptr with
  | some i => strcmp_at_eq path i lit
  | none => false

/-- The cases 1, 2, 3 of `convert_path`: `if (ptr) strcpy(ptr, ext)`. -/
def rewrite_if_ptr (path : List Char) (ptr : Option Nat) (ext : List Char) : List Char :=
  match ptr with
  | some i => strcpy_at path i ext
  | none => path

/-! ## Global data, backing store and process state -/

/-- Global program parameters (`struct transcodefs_params`). -/
structure transcodefs_params where
  basepath : List Char
  bitrate : Nat
  thresholdbitrate : Nat
  debug : Int

/-- The global `data`.  `discoverer` counts the references held on the discoverer
handle: `main` creates it with one reference, and `0` means the handle was released. -/
structure DiscovererData where
  discoverer : Nat
  thresholdbitrate : Nat
deriving DecidableEq, Repr

/-- What a discovery reports: the bitrate, in bits per second, of each audio stream,
in the order of `gst_discoverer_info_get_audio_streams`. -/
structure GstDiscovererInfo where
  audio_streams : List Nat
deriving DecidableEq, Repr

/-- Error numbers set by the system calls used here. -/
inductive Errno where
  | EPERM
  | ENOENT
  | EACCES
  | ENOTDIR
  | EISDIR
  | EINVAL
deriving DecidableEq, Repr

/-- Numeric value of an error number. -/
def Errno.code : Errno → Nat
  | .EPERM => 1
  | .ENOENT => 2
  | .EACCES => 13
  | .ENOTDIR => 20
  | .EISDIR => 21
  | .EINVAL => 22

/-- Value `ENOENT`. -/
def ENOENT : Nat := 2

/-- Value `O_RDONLY`. -/
def O_RDONLY : Nat := 0

/-- Value `NAME_MAX`. -/
def NAME_MAX : Nat := 255

/-- File attributes as filled by `lstat` (`struct stat`, the fields used here). -/
structure Stat where
  st_ino : Nat
  st_mode : Nat
  st_nlink : Nat
  st_size : Nat
deriving DecidableEq, Repr

/-- Macro `S_ISREG`. -/
def S_ISREG (m : Nat) : Bool := (m &&& 0o170000) == 0o100000

/-- Macro `S_ISLNK`. -/
def S_ISLNK (m : Nat) : Bool := (m &&& 0o170000) == 0o120000

/-- External calls, as recorded in the call log. -/
inductive Call where
  | lstat (p : List Char)
  | open_path (p : List Char) (flags : Nat)
  | close (p : List Char)
  | pread (p : List Char) (size : Nat) (offset : Nat)
  | readlink (p : List Char) (bufsiz : Nat)
  | opendir (p : List Char)
  | discover (uri : List Char)
deriving DecidableEq, Repr

/-- The environment of the process: parameters, backing store and prober. -/
structure Env where
  params : transcodefs_params
  lstat : List Char → Except Errno Stat
  open_path : List Char → Nat → Except Errno Unit
  pread : List Char → Nat → Nat → Except Errno (List Nat)
  readlink : List Char → Nat → Except Errno (List Char)
  opendir : List Char → Except Errno (List (List Char))
  discover : List Char → Option GstDiscovererInfo

/-- Mutable process state: `errno`, the global `data`, and the log of external calls. -/
structure Proc where
  errno : Nat
  data : DiscovererData
  calls : List Call
deriving DecidableEq, Repr

/-- Assignment to `errno`. -/
def Proc.set_errno (s : Proc) (e : Nat) : Proc := ⟨e, s.data, s.calls⟩

/-- Record an external call. -/
def Proc.log (s : Proc) (c : Call) : Proc := ⟨s.errno, s.data, s.calls ++ [c]⟩

/-- Replace the global `data`. -/
def Proc.set_data (s : Proc) (d : DiscovererData) : Proc := ⟨s.errno, d, s.calls⟩

/-- Conversion of a value to the C type `int` (32 bits, two's complement). -/
def to_int (n : Int) : Int := (n + 2 ^ 31) % 2 ^ 32 - 2 ^ 31

/-- Subtraction on `size_t` (64 bits). -/
def size_sub (a b : Nat) : Nat := (a + 2 ^ 64 - b % 2 ^ 64) % 2 ^ 64

/-! ## External calls -/

/-- Call `lstat(p, &st)`: the attributes on success, `errno` set on failure. -/
def lstat (env : Env) (s : Proc) (p : List Char) : Option Stat × Proc :=
  match env.lstat p with
  | .ok st => (some st, s.log (.lstat p))
  | .error e => (none, (s.log (.lstat p)).set_errno e.code)

/-- Call `open(p, flags)`: `true` when a descriptor is returned, `errno` set otherwise. -/
def sys_open (env : Env) (s : Proc) (p : List Char) (flags : Nat) : Bool × Proc :=
  match env.open_path p flags with
  | .ok _ => (true, s.log (.open_path p flags))
  | .error e => (false, (s.log (.open_path p flags)).set_errno e.code)

/-- Call `close(fd)` on the descriptor opened for `p`. -/
def sys_close (s : Proc) (p : List Char) : Proc := s.log (.close p)

/-- Call `pread(fd, buf, size, offset)` on the descriptor opened for `p`. -/
def pread (env : Env) (s : Proc) (p : List Char) (size offset : Nat) :
    Option (List Nat) × Proc :=
  match env.pread p size offset with
  | .ok bytes => (some bytes, s.log (.pread p size offset))
  | .error e => (none, (s.log (.pread p size offset)).set_errno e.code)

/-- Call `readlink(p, buf, bufsiz)`: the bytes placed in `buf`, or `errno` set. -/
def readlink (env : Env) (s : Proc) (p : List Char) (bufsiz : Nat) :
    Option (List Char) × Proc :=
  match env.readlink p bufsiz with
  | .ok text => (some text, s.log (.readlink p bufsiz))
  | .error e => (none, (s.log (.readlink p bufsiz)).set_errno e.code)

/-- Call `opendir(p)`: the names `readdir` will return, in order, or `errno` set. -/
def opendir (env : Env) (s : Proc) (p : List Char) : Option (List (List Char)) × Proc :=
  match env.opendir p with
  | .ok names => (some names, s.log (.opendir p))
  | .error e => (none, (s.log (.opendir p)).set_errno e.code)

/-- Call `gst_discoverer_discover_uri(data.discoverer, uri, NULL)`; `none` is NULL. -/
def gst_discoverer_discover_uri (env : Env) (s : Proc) (uri : List Char) :
    Except Fault (Option GstDiscovererInfo × Proc) :=
  if s.data.discoverer = 0 then .error .released_handle
  else .ok (env.discover uri, s.log (.discover uri))

/-- Call `g_object_unref(data.discoverer)` on a live handle. -/
def g_object_unref (s : Proc) : Proc :=
  s.set_data ⟨s.data.discoverer - 1, s.data.thresholdbitrate⟩

/-! ## translate_path and convert_path -/

/-- Size passed to `malloc` by `translate_path`. -/
def translate_path_alloc (params : transcodefs_params) (path : List Char) : Nat :=
  params.basepath.length + path.length + 2

/-- Function `translate_path`: the backing root followed by the virtual path. -/
def translate_path (params : transcodefs_params) (path : List Char) : List Char :=
  params.basepath ++ path

/-- The URI built by `snprintf(full_path, sizeof full_path, "%s%s%s%s%s", ...)` in
`convert_path`: the buffer is sized to hold all of it. -/
def full_path (params : transcodefs_params) (parent path : List Char) : List Char :=
  "file://".toList ++ params.basepath ++ parent ++ "/".toList ++ path

/-- Function `convert_path`.  Returns the contents of `path` after the call.
The local `bitrate` is `none` until it is assigned. -/
def convert_path (env : Env) (s : Proc) (path : List Char) (filetype : Int)
    (parent : List Char) : Except Fault (List Char × Proc) :=
  let full_path := full_path env.params parent path
  let ptr := strrchr path '.'
  if filetype = 1 then .ok (rewrite_if_ptr path ptr ".flac".toList, s)
  else if filetype = 2 then .ok (rewrite_if_ptr path ptr ".mp3".toList, s)
  else if filetype = 3 then .ok (rewrite_if_ptr path ptr ".ogg".toList, s)
  else
    match gst_discoverer_discover_uri env s full_path with
    | .error f => .error f
    | .ok (none, s) => .ok (path, g_object_unref s)
    | .ok (some info, s) =>
      if ptr_strcmp_eq path ptr ".flac".toList then
        match strcpy_ptr path ptr ".opus".toList with
        | .error f => .error f
        | .ok path => .ok (path, s)
      else
        let bitrate : Option Nat :=
          match info.audio_streams with
          | [] => none
          | astream :: _ => some (astream / 1000)
        match bitrate with
        | none => .error .uninitialized_read
        | some bitrate =>
          if bitrate ≥ s.data.thresholdbitrate then
            match strcpy_ptr path ptr ".opus".toList with
            | .error f => .error f
            | .ok path => .ok (path, s)
          else .ok (path, s)

/-- Call `convert_path(origpath, filetype, path)` on the buffer that `translate_path`
allocated for `path`: `strcpy` writes the rewritten path and its NUL, and writes past
the end of the buffer when they exceed the `translate_path_alloc` bytes it holds. -/
def convert_origpath (env : Env) (s : Proc) (origpath : List Char) (filetype : Int)
    (path : List Char) : Except Fault (List Char × Proc) :=
  match convert_path env s origpath filetype path with
  | .error f => .error f
  | .ok (origpath, s) =>
    if origpath.length + 1 ≤ translate_path_alloc env.params path then .ok (origpath, s)
    else .error .buffer_overflow

/-! ## Operation handlers -/

/-- The tail of `transcodefs_readlink` after a successful `readlink`:
`buf[len] = 0; convert_path(buf, 0, path); return -errno`. -/
def readlink_success (env : Env) (s : Proc) (path : List Char) (text : List Char) :
    Except Fault (Int × List Char × Proc) :=
  match convert_path env s text 0 path with
  | .error f => .error f
  | .ok (buf, s) => .ok (-(s.errno : Int), buf, s)

/-- Handler `transcodefs_readlink`: the return value, the buffer, the state. -/
def transcodefs_readlink (env : Env) (s0 : Proc) (path : List Char) (buf : List Char)
    (size : Nat) : Except Fault (Int × List Char × Proc) :=
  let s := s0.set_errno 0
  let origpath := translate_path env.params path
  match convert_origpath env s origpath 1 path with
  | .error f => .error f
  | .ok (origpath, s) =>
    match readlink env s origpath (size_sub size 2) with
    | (some text, s) => readlink_success env s path text
    | (none, s) =>
      match convert_origpath env s origpath 2 path with
      | .error f => .error f
      | .ok (origpath, s) =>
        match readlink env s origpath (size_sub size 2) with
        | (some text, s) => readlink_success env s path text
        | (none, s) => .ok (-(s.errno : Int), buf, s)

/-- Handler `transcodefs_getattr`: the return value, the stat buffer, the state. -/
def transcodefs_getattr (env : Env) (s0 : Proc) (path : List Char) (stbuf : Stat) :
    Except Fault (Int × Stat × Proc) :=
  let s := s0.set_errno 0
  let origpath := translate_path env.params path
  match lstat env s origpath with
  | (some st, s) => .ok (-(s.errno : Int), st, s)
  | (none, s) =>
    let s := s.set_errno 0
    match convert_origpath env s origpath 1 path with
    | .error f => .error f
    | .ok (origpath, s) =>
      match lstat env s origpath with
      | (some st, s) => .ok (-(s.errno : Int), st, s)
      | (none, s) =>
        match convert_origpath env s origpath 2 path with
        | .error f => .error f
        | .ok (origpath, s) =>
          let s := s.set_errno 0
          match lstat env s origpath with
          | (some st, s) => .ok (-(s.errno : Int), st, s)
          | (none, s) => .ok (-(s.errno : Int), stbuf, s)

/-- The path built by `snprintf(origfile, strlen(origpath) + NAME_MAX + 2, "%s/%s", ...)`
in `transcodefs_readdir`. -/
def origfile_of (origpath d_name : List Char) : List Char :=
  (origpath ++ "/".toList ++ d_name).take (origpath.length + NAME_MAX + 1)

/-- The loop of `transcodefs_readdir` over the names still to be returned by `readdir`.
The filler returns `true` when it reports a full buffer. -/
def readdir_loop {β : Type} (env : Env) (filler : β → List Char → Stat → β × Bool)
    (path origpath : List Char) : List (List Char) → Proc → β → Except Fault (β × Proc)
  | [], s, buf => .ok (buf, s)
  | d_name :: rest, s, buf =>
    let origfile := origfile_of origpath d_name
    match lstat env s origfile with
    | (none, s) => .ok (buf, s)
    | (some st, s) =>
      let converted : Except Fault (List Char × Proc) :=
        if S_ISREG st.st_mode || S_ISLNK st.st_mode then convert_path env s d_name 0 path
        else .ok (d_name, s)
      match converted with
      | .error f => .error f
      | .ok (d_name, s) =>
        match filler buf d_name st with
        | (buf, true) => .ok (buf, s)
        | (buf, false) => readdir_loop env filler path origpath rest s buf

/-- Handler `transcodefs_readdir`: the return value, the filled buffer, the state. -/
def transcodefs_readdir {β : Type} (env : Env) (s0 : Proc) (path : List Char) (buf : β)
    (filler : β → List Char → Stat → β × Bool) : Except Fault (Int × β × Proc) :=
  let s := s0.set_errno 0
  let origpath := translate_path env.params path
  match opendir env s origpath with
  | (none, s) => .ok (-(s.errno : Int), buf, s)
  | (some names, s) =>
    match readdir_loop env filler path origpath names s buf with
    | .error f => .error f
    | .ok (buf, s) => .ok (-(s.errno : Int), buf, s)

/-- The part of `transcodefs_open` after the literal path was found absent. -/
def open_fallback (env : Env) (s : Proc) (path origpath : List Char) (flags : Nat) :
    Except Fault (Int × Proc) :=
  match convert_origpath env s origpath 1 path with
  | .error f => .error f
  | .ok (origpath, s) =>
    match sys_open env s origpath flags with
    | (true, s) => .ok (-(s.errno : Int), sys_close s origpath)
    | (false, s) =>
      let s := s.set_errno 0
      match convert_origpath env s origpath 2 path with
      | .error f => .error f
      | .ok (origpath, s) =>
        match sys_open env s origpath flags with
        | (true, s) => .ok (-(s.errno : Int), sys_close s origpath)
        | (false, s) => .ok (-(s.errno : Int), s)

/-- Handler `transcodefs_open`: the return value and the state. -/
def transcodefs_open (env : Env) (s0 : Proc) (path : List Char) (flags : Nat) :
    Except Fault (Int × Proc) :=
  let s := s0.set_errno 0
  let origpath := translate_path env.params path
  match sys_open env s origpath flags with
  | (false, s) =>
    if s.errno ≠ ENOENT then .ok (-(s.errno : Int), s)
    else open_fallback env (s.set_errno 0) path origpath flags
  | (true, s) =>
    let s := s.set_errno 0
    .ok (-(s.errno : Int), sys_close s origpath)

/-- The final `if (read) return read; else return -errno;` of `transcodefs_read`. -/
def read_return (read : Int) (s : Proc) : Int :=
  if read ≠ 0 then read else -(s.errno : Int)

/-- Handler `transcodefs_read`: the return value, the buffer, the state. -/
def transcodefs_read (env : Env) (s0 : Proc) (path : List Char) (buf : List Nat)
    (size offset : Nat) : Int × List Nat × Proc :=
  let s := s0.set_errno 0
  let origpath := translate_path env.params path
  match sys_open env s origpath O_RDONLY with
  | (true, s) =>
    match pread env s origpath size offset with
    | (some bytes, s) =>
      let s := sys_close s origpath
      (read_return (to_int bytes.length) s, bytes ++ buf.drop bytes.length, s)
    | (none, s) =>
      let s := sys_close s origpath
      (read_return (to_int (-1)) s, buf, s)
  | (false, s) =>
    if s.errno ≠ ENOENT then (read_return 0 s, buf, s)
    else
      let s := s.set_errno 0
      (read_return 0 s, buf, s)

/-! ## Resolution order -/

/-- The first candidate that `lstat` finds, with its attributes. -/
def first_existing (env : Env) : List (List Char) → Option Stat
  | [] => none
  | c :: cs =>
    match env.lstat c with
    | .ok st => some st
    | .error _ => first_existing env cs

/-! ## Directory entries -/

/-- Entry `d_name` of the directory `path` has attributes `st` and is listed as `shown`:
a regular file or symbolic link under the name `convert_path` computes in decision mode,
with a live discoverer and without a fault, and any other entry under its stored name. -/
def entry_listed (env : Env) (path origpath : List Char) (threshold : Nat)
    (d_name shown : List Char) (st : Stat) : Prop :=
  env.lstat (origfile_of origpath d_name) = .ok st ∧
  if S_ISREG st.st_mode || S_ISLNK st.st_mode then
    ∀ s : Proc, 0 < s.data.discoverer → s.data.thresholdbitrate = threshold →
      convert_path env s d_name 0 path =
        .ok (shown, s.log (.discover (full_path env.params path d_name)))
  else shown = d_name

/-! ## Concrete backing stores -/

/-- An entry of a concrete backing store. -/
structure Node where
  path : List Char
  st : Stat
  openable : Bool
  content : List Nat
  link : Option (List Char)
  entries : Option (List (List Char))

/-- Look a path up in a list of entries. -/
def find_node (nodes : List Node) (p : List Char) : Option Node :=
  nodes.find? (fun n => decide (n.path = p))

/-- The environment made of a backing root, a list of entries and a table of probe
outcomes; a path or URI that is not listed is absent. -/
def store_env (basepath : List Char) (nodes : List Node)
    (probes : List (List Char × GstDiscovererInfo)) : Env where
  params := ⟨basepath, 64, 256, 0⟩
  lstat := fun p =>
    match find_node nodes p with
    | some n => .ok n.st
    | none => .error .ENOENT
  open_path := fun p _ =>
    match find_node nodes p with
    | some n => if n.openable then .ok () else .error .EACCES
    | none => .error .ENOENT
  pread := fun p size offset =>
    match find_node nodes p with
    | some n => .ok ((n.content.drop offset).take size)
    | none => .error .ENOENT
  readlink := fun p bufsiz =>
    match find_node nodes p with
    | some n =>
      match n.link with
      | some text => .ok (text.take bufsiz)
      | none => .error .EINVAL
    | none => .error .ENOENT
  opendir := fun p =>
    match find_node nodes p with
    | some n =>
      match n.entries with
      | some names => .ok names
      | none => .error .ENOTDIR
    | none => .error .ENOENT
  discover := fun uri => probes.lookup uri

/-- A regular file with the given inode number. -/
def regular_file (p : String) (ino : Nat) : Node :=
  ⟨p.toList, ⟨ino, 0o100644, 1, 4096⟩, true, [], none, none⟩

/-- A symbolic link with the given text. -/
def symlink_node (p : String) (ino : Nat) (text : String) : Node :=
  ⟨p.toList, ⟨ino, 0o120777, 1, text.length⟩, false, [], some text.toList, none⟩

/-- A directory with the given entry names. -/
def directory (p : String) (ino : Nat) (names : List String) : Node :=
  ⟨p.toList, ⟨ino, 0o040755, 2, 4096⟩, true, [], none, some (names.map String.toList)⟩

/-- The process state left by `main`: one reference on the discoverer, threshold 256. -/
def proc0 : Proc := ⟨0, ⟨1, 256⟩, []⟩

/-- A zeroed stat buffer. -/
def stat0 : Stat := ⟨0, 0, 0, 0⟩

/-- A directory filler that stores up to `cap` entries and then reports a full buffer. -/
def list_filler (cap : Nat) (buf : List (List Char × Stat)) (name : List Char) (st : Stat) :
    List (List Char × Stat) × Bool :=
  if buf.length < cap then (buf ++ [(name, st)], false) else (buf, true)

/-- Attributes of `/media/song.flac` in the example stores. -/
def song_stat : Stat := ⟨11, 0o100644, 1, 4096⟩

/-- Attributes of `/media/song.ogg` in the example store. -/
def ogg_stat : Stat := ⟨12, 0o100644, 1, 4096⟩

/-- A store with the single file `/media/album/track.mp3`, probed at 320 kbps. -/
def env_track : Env :=
  store_env "/media".toList [regular_file "/media/album/track.mp3" 7]
    [("file:///media/album/track.mp3".toList, ⟨[320000]⟩)]

/-- A store with the single file `/media/album/song.flac`; the probe reports no audio
stream. -/
def env_song_probe : Env :=
  store_env "/media".toList [regular_file "/media/album/song.flac" 11]
    [("file:///media/album/song.flac".toList, ⟨[]⟩)]

/-- Backing root `/media` holding the single file `/media/song.flac`. -/
def env_song : Env := store_env "/media".toList [regular_file "/media/song.flac" 11] []

/-- Backing root `/media` holding the single file `/media/song.ogg`. -/
def env_ogg : Env := store_env "/media".toList [regular_file "/media/song.ogg" 12] []

/-- A store whose file `/media/song.flac` holds the bytes 1 to 5. -/
def env_bytes : Env :=
  store_env "/media".toList
    [⟨"/media/song.flac".toList, song_stat, true, [1, 2, 3, 4, 5], none, none⟩] []

/-- A store whose directory `/media/album` holds one regular file named `track`, with
no `.` in its name, probed at 320 kbps. -/
def env_album : Env :=
  store_env "/media".toList
    [directory "/media/album" 40 [".", "..", "track"],
     directory "/media/album/." 40 [],
     directory "/media/album/.." 2 [],
     regular_file "/media/album/track" 41]
    [("file:///media/album/track".toList, ⟨[320000]⟩)]

/-- A store whose directory `/media/mix` holds `song.flac`, probed at 0 kbps, and
`track.mp3`, probed at 256 kbps. -/
def env_mix : Env :=
  store_env "/media".toList
    [directory "/media/mix" 50 [".", "..", "song.flac", "track.mp3"],
     directory "/media/mix/." 50 [],
     directory "/media/mix/.." 2 [],
     regular_file "/media/mix/song.flac" 51,
     regular_file "/media/mix/track.mp3" 52]
    [("file:///media/mix/song.flac".toList, ⟨[0]⟩),
     ("file:///media/mix/track.mp3".toList, ⟨[256000]⟩)]

/-- A store in which `/media/a.mp3` is a symbolic link to `b.mp3` (probed at 128 kbps
under the URI that readlink builds) and `/media/a.flac` is absent. -/
def env_link_mp3 : Env :=
  store_env "/media".toList [symlink_node "/media/a.mp3" 21 "b.mp3"]
    [("file:///media/a.opus/b.mp3".toList, ⟨[128000]⟩)]

/-- A store in which the literal path `/media/l.opus` is a symbolic link to `x.opus`. -/
def env_link_literal : Env :=
  store_env "/media".toList [symlink_node "/media/l.opus" 22 "x.opus"] []

@[simp] theorem log_data (s : Proc) (c : Call) : (s.log c).data = s.data := rfl

@[simp] theorem log_errno (s : Proc) (c : Call) : (s.log c).errno = s.errno := rfl

@[simp] theorem log_calls (s : Proc) (c : Call) : (s.log c).calls = s.calls ++ [c] := rfl

@[simp] theorem set_errno_data (s : Proc) (e : Nat) : (s.set_errno e).data = s.data := rfl

@[simp] theorem set_errno_errno (s : Proc) (e : Nat) : (s.set_errno e).errno = e := rfl

@[simp] theorem set_errno_calls (s : Proc) (e : Nat) : (s.set_errno e).calls = s.calls := rfl

@[simp] theorem set_errno_set_errno (s : Proc) (e f : Nat) :
    (s.set_errno e).set_errno f = s.set_errno f := rfl

/-! ## Lemmas on strings and rewrites -/

theorem strrchr_absent (c : Char) (e : List Char) (h : c ∉ e) : strrchr e c = none := by
  induction e with
  | nil => rfl
  | cons x xs ih =>
    have hx : ¬ x = c := fun hxc => h (by simp [hxc])
    have hxs : c ∉ xs := fun hm => h (List.mem_cons_of_mem _ hm)
    simp [strrchr, ih hxs, hx]

theorem strrchr_last (c : Char) (a e : List Char) (h : c ∉ e) :
    strrchr (a ++ c :: e) c = some a.length := by
  induction a with
  | nil => simp [strrchr, strrchr_absent c e h]
  | cons x xs ih => simp [strrchr, ih]

theorem rewrite_if_ptr_suffix (a e ext : List Char) (h : '.' ∉ e) :
    rewrite_if_ptr (a ++ '.' :: e) (strrchr (a ++ '.' :: e) '.') ext = a ++ ext := by
  rw [strrchr_last _ a e h]
  simp [rewrite_if_ptr, strcpy_at]

theorem convert_path_flac (env : Env) (s : Proc) (root stem e parent : List Char)
    (h : '.' ∉ e) :
    convert_path env s (root ++ (stem ++ '.' :: e)) 1 parent =
      .ok (root ++ stem ++ ".flac".toList, s) := by
  have hassoc : root ++ (stem ++ '.' :: e) = (root ++ stem) ++ '.' :: e := by simp
  rw [hassoc]
  simp only [convert_path, if_true, rewrite_if_ptr_suffix _ _ _ h]

theorem convert_path_mp3 (env : Env) (s : Proc) (root stem parent : List Char) :
    convert_path env s (root ++ stem ++ ".flac".toList) 2 parent =
      .ok (root ++ stem ++ ".mp3".toList, s) := by
  have hflac : ".flac".toList = '.' :: "flac".toList := rfl
  have hdot : '.' ∉ "flac".toList := by decide
  have h21 : ¬ ((2 : Int) = 1) := by decide
  rw [hflac]
  simp only [convert_path, h21, if_false, if_true, rewrite_if_ptr_suffix _ _ _ hdot]

theorem convert_path_ogg (env : Env) (s : Proc) (root stem e parent : List Char)
    (h : '.' ∉ e) :
    convert_path env s (root ++ (stem ++ '.' :: e)) 3 parent =
      .ok (root ++ stem ++ ".ogg".toList, s) := by
  have hassoc : root ++ (stem ++ '.' :: e) = (root ++ stem) ++ '.' :: e := by simp
  have h31 : ¬ ((3 : Int) = 1) := by decide
  have h32 : ¬ ((3 : Int) = 2) := by decide
  rw [hassoc]
  simp only [convert_path, h31, h32, if_false, if_true, rewrite_if_ptr_suffix _ _ _ h]

/-- The `.flac` rewrite of the translated path fits its buffer when the last suffix has
at least three characters after the dot. -/
theorem convert_origpath_flac (env : Env) (s : Proc) (stem e : List Char)
    (h : '.' ∉ e) (hlen : 3 ≤ e.length) :
    convert_origpath env s (env.params.basepath ++ (stem ++ '.' :: e)) 1 (stem ++ '.' :: e) =
      .ok (env.params.basepath ++ stem ++ ".flac".toList, s) := by
  have h5 : ".flac".toList.length = 5 := rfl
  have hfit : (env.params.basepath ++ stem ++ ".flac".toList).length + 1 ≤
      translate_path_alloc env.params (stem ++ '.' :: e) := by
    simp only [translate_path_alloc, List.length_append, List.length_cons, h5]
    omega
  simp only [convert_origpath, convert_path_flac env s env.params.basepath stem e _ h,
    if_pos hfit]

/-- The `.mp3` rewrite that follows the `.flac` rewrite fits the same buffer. -/
theorem convert_origpath_mp3 (env : Env) (s : Proc) (stem e : List Char)
    (hlen : 3 ≤ e.length) :
    convert_origpath env s (env.params.basepath ++ stem ++ ".flac".toList) 2
        (stem ++ '.' :: e) =
      .ok (env.params.basepath ++ stem ++ ".mp3".toList, s) := by
  have h4 : ".mp3".toList.length = 4 := rfl
  have hfit : (env.params.basepath ++ stem ++ ".mp3".toList).length + 1 ≤
      translate_path_alloc env.params (stem ++ '.' :: e) := by
    simp only [translate_path_alloc, List.length_append, List.length_cons, h4]
    omega
  simp only [convert_origpath, convert_path_mp3, if_pos hfit]

/-- The `.flac` rewrite of the translated path overruns its buffer when the last suffix
has fewer than three characters after the dot. -/
theorem convert_origpath_short (env : Env) (s : Proc) (stem e : List Char)
    (h : '.' ∉ e) (hlen : e.length < 3) :
    convert_origpath env s (env.params.basepath ++ (stem ++ '.' :: e)) 1 (stem ++ '.' :: e) =
      .error .buffer_overflow := by
  have h5 : ".flac".toList.length = 5 := rfl
  have hfit : ¬ ((env.params.basepath ++ stem ++ ".flac".toList).length + 1 ≤
      translate_path_alloc env.params (stem ++ '.' :: e)) := by
    simp only [translate_path_alloc, List.length_append, List.length_cons, h5]
    omega
  simp only [convert_origpath, convert_path_flac env s env.params.basepath stem e _ h,
    if_neg hfit]

/-- When the prober returns NULL, decision mode leaves the name as it is and drops one
reference on the discoverer. -/
theorem convert_path_probe_failed (env : Env) (s : Proc) (path parent : List Char)
    (hlive : 0 < s.data.discoverer)
    (hprobe : env.discover (full_path env.params parent path) = none) :
    convert_path env s path 0 parent =
      .ok (path, g_object_unref (s.log (.discover (full_path env.params parent path)))) := by
  have hne0 : s.data.discoverer ≠ 0 := Nat.pos_iff_ne_zero.mp hlive
  simp [convert_path, gst_discoverer_discover_uri, hne0, hprobe]

/-- C1: in decision mode, for a name `stem ++ "." ++ e` whose last suffix `"." ++ e` is
not `.flac`, and a successful probe whose first audio stream reports `b` bits per second,
`convert_path` returns `stem ++ ".opus"` when `b / 1000` reaches the threshold and the
name unchanged otherwise. -/
theorem C1_lossy_decision (env : Env) (s : Proc) (stem e parent : List Char)
    (info : GstDiscovererInfo) (b : Nat)
    (hdot : '.' ∉ e) (hne : e ≠ "flac".toList)
    (hlive : 0 < s.data.discoverer)
    (hprobe : env.discover (full_path env.params parent (stem ++ '.' :: e)) = some info)
    (hfirst : info.audio_streams.head? = some b) :
    convert_path env s (stem ++ '.' :: e) 0 parent =
      .ok (if s.data.thresholdbitrate ≤ b / 1000 then stem ++ ".opus".toList
           else stem ++ '.' :: e,
           s.log (.discover (full_path env.params parent (stem ++ '.' :: e)))) := by
  have hne0 : s.data.discoverer ≠ 0 := Nat.pos_iff_ne_zero.mp hlive
  have hcmp : ¬ ('.' :: e = ".flac".toList) := by
    intro h
    apply hne
    simpa using h
  have hne1 : ¬ e = ['f', 'l', 'a', 'c'] := by simpa using hne
  obtain ⟨l⟩ := info
  cases l with
  | nil => simp at hfirst
  | cons a rest =>
    simp only [List.head?_cons, Option.some.injEq] at hfirst
    subst hfirst
    by_cases ht : s.data.thresholdbitrate ≤ a / 1000
    · simp [convert_path, gst_discoverer_discover_uri, hne0, hprobe, strrchr_last _ stem e hdot,
        ptr_strcmp_eq, strcmp_at_eq, strcpy_ptr, strcpy_at, hcmp, ht, hne1]
    · simp [convert_path, gst_discoverer_discover_uri, hne0, hprobe, strrchr_last _ stem e hdot,
        ptr_strcmp_eq, strcmp_at_eq, strcpy_ptr, strcpy_at, hcmp, ht, hne1]

/-- Witness of C1: `track.mp3` probed at 320 kbps with threshold 256 becomes `track.opus`. -/
theorem C1_lossy_decision_witness :
    convert_path env_track proc0 ("track".toList ++ '.' :: "mp3".toList) 0 "/album".toList =
      .ok (if proc0.data.thresholdbitrate ≤ 320000 / 1000 then "track".toList ++ ".opus".toList
           else "track".toList ++ '.' :: "mp3".toList,
           proc0.log (.discover
             (full_path env_track.params "/album".toList ("track".toList ++ '.' :: "mp3".toList)))) :=
  C1_lossy_decision env_track proc0 "track".toList "mp3".toList "/album".toList ⟨[320000]⟩ 320000
    (by decide) (by decide) (by decide) (by rfl) (by rfl)

/-- C2: in decision mode, for a name `stem ++ ".flac"` and any discovery result, whatever
its audio streams and whatever the threshold, `convert_path` returns `stem ++ ".opus"`. -/
theorem C2_lossless_decision (env : Env) (s : Proc) (stem parent : List Char)
    (info : GstDiscovererInfo)
    (hlive : 0 < s.data.discoverer)
    (hprobe : env.discover (full_path env.params parent (stem ++ ".flac".toList)) = some info) :
    convert_path env s (stem ++ ".flac".toList) 0 parent =
      .ok (stem ++ ".opus".toList,
           s.log (.discover (full_path env.params parent (stem ++ ".flac".toList)))) := by
  have hne0 : s.data.discoverer ≠ 0 := Nat.pos_iff_ne_zero.mp hlive
  have hflac : ".flac".toList = '.' :: "flac".toList := rfl
  have hdot : '.' ∉ "flac".toList := by decide
  have hptr : strrchr (stem ++ ".flac".toList) '.' = some stem.length := by
    rw [hflac]
    exact strrchr_last _ stem _ hdot
  simp only [convert_path, gst_discoverer_discover_uri, hne0, hprobe, hptr]
  simp [ptr_strcmp_eq, strcmp_at_eq, strcpy_ptr, strcpy_at]

/-- Witness of C2: `song.flac` becomes `song.opus` on a result with no audio stream. -/
theorem C2_lossless_decision_witness :
    convert_path env_song_probe proc0 ("song".toList ++ ".flac".toList) 0 "/album".toList =
      .ok ("song".toList ++ ".opus".toList,
           proc0.log (.discover
             (full_path env_song_probe.params "/album".toList ("song".toList ++ ".flac".toList)))) :=
  C2_lossless_decision env_song_probe proc0 "song".toList "/album".toList ⟨[]⟩ (by decide) (by rfl)

/-! ## getattr -/

theorem first_existing_three (env : Env) (a b c : List Char) :
    first_existing env [a, b, c] =
      match env.lstat a with
      | .ok st => some st
      | .error _ =>
        match env.lstat b with
        | .ok st => some st
        | .error _ =>
          match env.lstat c with
          | .ok st => some st
          | .error _ => none := rfl

/-- The result of `transcodefs_getattr` on a path whose extension has at least three
characters, by the outcome of the three `lstat` calls. -/
theorem getattr_ext (env : Env) (s0 : Proc) (stem e : List Char) (stbuf : Stat)
    (hdot : '.' ∉ e) (hlen : 3 ≤ e.length) :
    transcodefs_getattr env s0 (stem ++ '.' :: e) stbuf =
      match env.lstat (env.params.basepath ++ (stem ++ '.' :: e)) with
      | .ok st => .ok (0, st,
          (s0.set_errno 0).log (.lstat (env.params.basepath ++ (stem ++ '.' :: e))))
      | .error _ =>
        match env.lstat (env.params.basepath ++ stem ++ ".flac".toList) with
        | .ok st => .ok (0, st,
            (((s0.set_errno 0).log (.lstat (env.params.basepath ++ (stem ++ '.' :: e)))).log
              (.lstat (env.params.basepath ++ stem ++ ".flac".toList))))
        | .error _ =>
          match env.lstat (env.params.basepath ++ stem ++ ".mp3".toList) with
          | .ok st => .ok (0, st,
              ((((s0.set_errno 0).log (.lstat (env.params.basepath ++ (stem ++ '.' :: e)))).log
                (.lstat (env.params.basepath ++ stem ++ ".flac".toList))).log
                (.lstat (env.params.basepath ++ stem ++ ".mp3".toList))))
          | .error e3 => .ok (-(e3.code : Int), stbuf,
              (((((s0.set_errno 0).log (.lstat (env.params.basepath ++ (stem ++ '.' :: e)))).log
                (.lstat (env.params.basepath ++ stem ++ ".flac".toList))).log
                (.lstat (env.params.basepath ++ stem ++ ".mp3".toList))).set_errno e3.code)) := by
  unfold transcodefs_getattr
  simp only [translate_path, lstat]
  cases h1 : env.lstat (env.params.basepath ++ (stem ++ '.' :: e)) with
  | ok st => simp
  | error e1 =>
    simp only [convert_origpath_flac env _ stem e hdot hlen]
    cases h2 : env.lstat (env.params.basepath ++ stem ++ ".flac".toList) with
    | ok st => simp [Proc.set_errno, Proc.log]
    | error e2 =>
      simp only [convert_origpath_mp3 env _ stem e hlen]
      cases h3 : env.lstat (env.params.basepath ++ stem ++ ".mp3".toList) with
      | ok st => simp [Proc.set_errno, Proc.log]
      | error e3 => simp [Proc.set_errno, Proc.log]

/-- On a path whose extension has fewer than three characters and whose literal
translation fails `lstat`, getattr writes the `.flac` rewrite past the end of the buffer
of `translate_path`. -/
theorem getattr_short_suffix (env : Env) (s0 : Proc) (stem e : List Char) (stbuf : Stat)
    (hdot : '.' ∉ e) (hlen : e.length < 3)
    (hlit : ∃ err, env.lstat (env.params.basepath ++ (stem ++ '.' :: e)) = .error err) :
    transcodefs_getattr env s0 (stem ++ '.' :: e) stbuf = .error .buffer_overflow := by
  obtain ⟨e1, h1⟩ := hlit
  unfold transcodefs_getattr
  simp only [translate_path, lstat, h1, convert_origpath_short env _ stem e hdot hlen]

/-- Counterexample to C4 as stated: `/media/song.ogg` is the only candidate that exists,
it is what the `.ogg` rewrite of the request names, and `getattr("/song.opus")` returns
`-ENOENT` after trying the literal, `.flac` and `.mp3` names only. -/
theorem C4_ogg_counterexample :
    env_ogg.lstat "/media/song.ogg".toList = .ok ogg_stat ∧
    env_ogg.lstat "/media/song.opus".toList = .error .ENOENT ∧
    env_ogg.lstat "/media/song.flac".toList = .error .ENOENT ∧
    env_ogg.lstat "/media/song.mp3".toList = .error .ENOENT ∧
    convert_path env_ogg proc0 (translate_path env_ogg.params "/song.opus".toList) 3
      "/song.opus".toList = .ok ("/media/song.ogg".toList, proc0) ∧
    transcodefs_getattr env_ogg proc0 "/song.opus".toList stat0 =
      .ok (-2, stat0, ⟨2, proc0.data,
        [.lstat "/media/song.opus".toList, .lstat "/media/song.flac".toList,
         .lstat "/media/song.mp3".toList]⟩) :=
  ⟨by rfl, by rfl, by rfl, by rfl, by rfl, by rfl⟩

/-- C4 (amended): for a virtual path `stem ++ "." ++ e` with an extension `e` of at least
three characters, getattr resolves to the first
of the literal, `.flac` and `.mp3` names that `lstat` finds and returns 0 with its
attributes; when none of the three is found it returns the negated error of the `.mp3`
lookup, whatever the store holds under the `.ogg` name, which is never looked up; and
the returned value and attributes do not depend on the state left by earlier calls. -/
theorem C4_resolution_order (env : Env) (s0 : Proc) (stem e : List Char) (stbuf : Stat)
    (hdot : '.' ∉ e) (hlen : 3 ≤ e.length) :
    (∀ st, first_existing env
        [env.params.basepath ++ (stem ++ '.' :: e),
         env.params.basepath ++ stem ++ ".flac".toList,
         env.params.basepath ++ stem ++ ".mp3".toList] = some st →
      ∃ s, transcodefs_getattr env s0 (stem ++ '.' :: e) stbuf = .ok (0, st, s)) ∧
    (first_existing env
        [env.params.basepath ++ (stem ++ '.' :: e),
         env.params.basepath ++ stem ++ ".flac".toList,
         env.params.basepath ++ stem ++ ".mp3".toList] = none →
      ∃ err s, env.lstat (env.params.basepath ++ stem ++ ".mp3".toList) = .error err ∧
        transcodefs_getattr env s0 (stem ++ '.' :: e) stbuf =
          .ok (-(err.code : Int), stbuf, s)) ∧
    (∀ r st s, transcodefs_getattr env s0 (stem ++ '.' :: e) stbuf = .ok (r, st, s) →
      Call.lstat (env.params.basepath ++ stem ++ ".ogg".toList) ∈ s.calls →
      Call.lstat (env.params.basepath ++ stem ++ ".ogg".toList) ∈ s0.calls ∨
        e = "ogg".toList) ∧
    (∀ s1 : Proc,
      (transcodefs_getattr env s1 (stem ++ '.' :: e) stbuf).map (fun r => (r.1, r.2.1)) =
      (transcodefs_getattr env s0 (stem ++ '.' :: e) stbuf).map (fun r => (r.1, r.2.1))) := by
  refine ⟨?_, ?_, ?_, ?_⟩
  · intro st h
    rw [getattr_ext env s0 stem e stbuf hdot hlen]
    rw [first_existing_three] at h
    cases h1 : env.lstat (env.params.basepath ++ (stem ++ '.' :: e)) with
    | ok st1 =>
      rw [h1] at h
      have h' : some st1 = some st := h
      cases h'
      exact ⟨_, rfl⟩
    | error e1 =>
      rw [h1] at h
      cases h2 : env.lstat (env.params.basepath ++ stem ++ ".flac".toList) with
      | ok st2 =>
        rw [h2] at h
        have h' : some st2 = some st := h
        cases h'
        exact ⟨_, rfl⟩
      | error e2 =>
        rw [h2] at h
        cases h3 : env.lstat (env.params.basepath ++ stem ++ ".mp3".toList) with
        | ok st3 =>
          rw [h3] at h
          have h' : some st3 = some st := h
          cases h'
          exact ⟨_, rfl⟩
        | error e3 =>
          rw [h3] at h
          have h' : (none : Option Stat) = some st := h
          cases h'
  · intro h
    rw [getattr_ext env s0 stem e stbuf hdot hlen]
    rw [first_existing_three] at h
    cases h1 : env.lstat (env.params.basepath ++ (stem ++ '.' :: e)) with
    | ok st1 =>
      rw [h1] at h
      have h' : some st1 = none := h
      cases h'
    | error e1 =>
      rw [h1] at h
      cases h2 : env.lstat (env.params.basepath ++ stem ++ ".flac".toList) with
      | ok st2 =>
        rw [h2] at h
        have h' : some st2 = none := h
        cases h'
      | error e2 =>
        rw [h2] at h
        cases h3 : env.lstat (env.params.basepath ++ stem ++ ".mp3".toList) with
        | ok st3 =>
          rw [h3] at h
          have h' : some st3 = none := h
          cases h'
        | error e3 => exact ⟨e3, _, rfl, rfl⟩
  · intro r st s h hmem
    rw [getattr_ext env s0 stem e stbuf hdot hlen] at h
    have hflac : ¬ (".ogg".toList = ".flac".toList) := by decide
    have hmp3 : ¬ (".ogg".toList = ".mp3".toList) := by decide
    have hlit : env.params.basepath ++ stem ++ ".ogg".toList =
        env.params.basepath ++ (stem ++ '.' :: e) → e = "ogg".toList := by
      intro heq
      have heq2 : env.params.basepath ++ stem ++ ".ogg".toList =
          env.params.basepath ++ stem ++ '.' :: e := by simpa using heq
      have := List.append_cancel_left heq2
      simpa using this.symm
    have hf : env.params.basepath ++ stem ++ ".ogg".toList ≠
        env.params.basepath ++ stem ++ ".flac".toList :=
      fun heq => hflac (List.append_cancel_left heq)
    have hm : env.params.basepath ++ stem ++ ".ogg".toList ≠
        env.params.basepath ++ stem ++ ".mp3".toList :=
      fun heq => hmp3 (List.append_cancel_left heq)
    cases h1 : env.lstat (env.params.basepath ++ (stem ++ '.' :: e)) with
    | ok st1 =>
      simp only [h1, Except.ok.injEq, Prod.mk.injEq] at h
      obtain ⟨_, _, hs⟩ := h
      subst hs
      simp only [log_calls, set_errno_calls, List.mem_append, List.mem_singleton,
        Call.lstat.injEq] at hmem
      rcases hmem with hmem | hmem
      · exact Or.inl hmem
      · exact Or.inr (hlit hmem)
    | error e1 =>
      simp only [h1] at h
      cases h2 : env.lstat (env.params.basepath ++ stem ++ ".flac".toList) with
      | ok st2 =>
        simp only [h2, Except.ok.injEq, Prod.mk.injEq] at h
        obtain ⟨_, _, hs⟩ := h
        subst hs
        simp only [log_calls, set_errno_calls, List.mem_append, List.mem_singleton,
          Call.lstat.injEq] at hmem
        rcases hmem with (hmem | hmem) | hmem
        · exact Or.inl hmem
        · exact Or.inr (hlit hmem)
        · exact absurd hmem hf
      | error e2 =>
        simp only [h2] at h
        cases h3 : env.lstat (env.params.basepath ++ stem ++ ".mp3".toList) with
        | ok st3 =>
          simp only [h3, Except.ok.injEq, Prod.mk.injEq] at h
          obtain ⟨_, _, hs⟩ := h
          subst hs
          simp only [log_calls, set_errno_calls, List.mem_append, List.mem_singleton,
            Call.lstat.injEq] at hmem
          rcases hmem with ((hmem | hmem) | hmem) | hmem
          · exact Or.inl hmem
          · exact Or.inr (hlit hmem)
          · exact absurd hmem hf
          · exact absurd hmem hm
        | error e3 =>
          simp only [h3, Except.ok.injEq, Prod.mk.injEq] at h
          obtain ⟨_, _, hs⟩ := h
          subst hs
          simp only [log_calls, set_errno_calls, List.mem_append, List.mem_singleton,
            Call.lstat.injEq] at hmem
          rcases hmem with ((hmem | hmem) | hmem) | hmem
          · exact Or.inl hmem
          · exact Or.inr (hlit hmem)
          · exact absurd hmem hf
          · exact absurd hmem hm
  · intro s1
    rw [getattr_ext env s0 stem e stbuf hdot hlen, getattr_ext env s1 stem e stbuf hdot hlen]
    cases env.lstat (env.params.basepath ++ (stem ++ '.' :: e)) with
    | ok st1 => rfl
    | error e1 =>
      cases env.lstat (env.params.basepath ++ stem ++ ".flac".toList) with
      | ok st2 => rfl
      | error e2 =>
        cases env.lstat (env.params.basepath ++ stem ++ ".mp3".toList) with
        | ok st3 => rfl
        | error e3 => rfl

/-- Witness of C4 (amended): in the store holding only `/media/song.ogg` the lookup of
`/song.opus` finds none of the three names and returns the error of the `.mp3` lookup. -/
theorem C4_resolution_order_witness :
    ∃ err s, env_ogg.lstat (env_ogg.params.basepath ++ "/song".toList ++ ".mp3".toList) =
        .error err ∧
      transcodefs_getattr env_ogg proc0 ("/song".toList ++ '.' :: "opus".toList) stat0 =
        .ok (-(err.code : Int), stat0, s) :=
  (C4_resolution_order env_ogg proc0 "/song".toList "opus".toList stat0 (by decide)
    (by decide)).2.1 (by rfl)

/-- Counterexample to C5 as stated: with `/media/song.flac` present,
`getattr("/song.flac")` returns 0 with the attributes of that file, not `-ENOENT`. -/
theorem C5_stored_name_counterexample :
    transcodefs_getattr env_song proc0 "/song.flac".toList stat0 =
      .ok (0, song_stat, ⟨0, proc0.data, [.lstat "/media/song.flac".toList]⟩) ∧
    ¬ ∃ st s, transcodefs_getattr env_song proc0 "/song.flac".toList stat0 =
      .ok (-(ENOENT : Int), st, s) := by
  have h : transcodefs_getattr env_song proc0 "/song.flac".toList stat0 =
      .ok (0, song_stat, ⟨0, proc0.data, [.lstat "/media/song.flac".toList]⟩) := by rfl
  refine ⟨h, ?_⟩
  rintro ⟨st, s, h2⟩
  rw [h] at h2
  simp [ENOENT] at h2

/-- C5 (amended): with backing root `/media` and `/media/song.flac` present, getattr on
the virtual path `/song.flac` returns 0 with the attributes of `/media/song.flac`: the
stored name is served by literal passthrough. -/
theorem C5_stored_name_passthrough (env : Env) (s0 : Proc) (stbuf st : Stat)
    (hroot : env.params.basepath = "/media".toList)
    (hfile : env.lstat "/media/song.flac".toList = .ok st) :
    ∃ s, transcodefs_getattr env s0 "/song.flac".toList stbuf = .ok (0, st, s) := by
  have hlit : env.lstat (env.params.basepath ++ "/song.flac".toList) = .ok st := by
    rw [hroot]
    exact hfile
  unfold transcodefs_getattr
  simp only [translate_path, lstat, hlit]
  exact ⟨_, rfl⟩

/-- Witness of C5 (amended) in the store holding only `/media/song.flac`. -/
theorem C5_stored_name_passthrough_witness :
    ∃ s, transcodefs_getattr env_song proc0 "/song.flac".toList stat0 =
      .ok (0, song_stat, s) :=
  C5_stored_name_passthrough env_song proc0 stat0 song_stat (by rfl) (by rfl)

/-! ## Passthrough -/

/-- C6: when the literal translated path exists, getattr returns 0 with exactly the
attributes `lstat` reports for it, and its only external call is that `lstat`; when
the path opens read-only, read returns exactly what the positioned read returns (the
byte count, with those bytes at the start of the buffer, or -1 when the read fails),
and its only external calls are the open, the read and the close on that same path. -/
theorem C6_passthrough (env : Env) (s0 : Proc) (path : List Char) (stbuf st : Stat)
    (hlit : env.lstat (translate_path env.params path) = .ok st) :
    transcodefs_getattr env s0 path stbuf =
      .ok (0, st, ⟨0, s0.data, s0.calls ++ [.lstat (translate_path env.params path)]⟩) ∧
    (∀ (buf : List Nat) (size offset : Nat) (bytes : List Nat),
      env.open_path (translate_path env.params path) O_RDONLY = .ok () →
      env.pread (translate_path env.params path) size offset = .ok bytes →
      bytes.length < 2 ^ 31 →
      transcodefs_read env s0 path buf size offset =
        ((bytes.length : Int), bytes ++ buf.drop bytes.length,
          ⟨0, s0.data, s0.calls ++
            [.open_path (translate_path env.params path) O_RDONLY,
             .pread (translate_path env.params path) size offset,
             .close (translate_path env.params path)]⟩)) ∧
    (∀ (buf : List Nat) (size offset : Nat) (err : Errno),
      env.open_path (translate_path env.params path) O_RDONLY = .ok () →
      env.pread (translate_path env.params path) size offset = .error err →
      transcodefs_read env s0 path buf size offset =
        (-1, buf,
          ⟨err.code, s0.data, s0.calls ++
            [.open_path (translate_path env.params path) O_RDONLY,
             .pread (translate_path env.params path) size offset,
             .close (translate_path env.params path)]⟩)) := by
  refine ⟨?_, ?_, ?_⟩
  · unfold transcodefs_getattr
    simp only [lstat, hlit]
    rfl
  · intro buf size offset bytes hopen hread hfit
    have hint : to_int (bytes.length : Int) = (bytes.length : Int) := by
      unfold to_int
      omega
    unfold transcodefs_read
    simp only [sys_open, hopen, pread, hread, hint, read_return, sys_close]
    by_cases hz : (bytes.length : Int) = 0
    · simp [hz, Proc.log, Proc.set_errno]
    · simp [hz, Proc.log, Proc.set_errno]
  · intro buf size offset err hopen hread
    have hint : to_int (-1) = -1 := by decide
    unfold transcodefs_read
    simp only [sys_open, hopen, pread, hread, hint, read_return, sys_close]
    simp [Proc.log, Proc.set_errno]

/-- Witness of C6: getattr and a read of 3 bytes at offset 1 on `/song.flac`. -/
theorem C6_passthrough_witness :
    transcodefs_getattr env_bytes proc0 "/song.flac".toList stat0 =
      .ok (0, song_stat, ⟨0, proc0.data, [.lstat "/media/song.flac".toList]⟩) ∧
    transcodefs_read env_bytes proc0 "/song.flac".toList [0, 0, 0, 0] 3 1 =
      (3, [2, 3, 4, 0],
        ⟨0, proc0.data,
          [.open_path "/media/song.flac".toList O_RDONLY, .pread "/media/song.flac".toList 3 1,
           .close "/media/song.flac".toList]⟩) :=
  have h := C6_passthrough env_bytes proc0 "/song.flac".toList stat0 song_stat (by rfl)
  ⟨h.1, h.2.1 [0, 0, 0, 0] 3 1 [2, 3, 4] (by rfl) (by rfl) (by decide)⟩

/-! ## readdir -/

/-- In `/media/mix`, `song.flac` probed at 0 kbps and `track.mp3` probed at exactly 256
kbps are both listed under `.opus`, after `.` and `..` under their stored names. -/
theorem readdir_threshold_example :
    (transcodefs_readdir env_mix proc0 "/mix".toList [] (list_filler 100)).map
        (fun r => (r.1, r.2.1.map Prod.fst)) =
      .ok (0, [".".toList, "..".toList, "song.opus".toList, "track.opus".toList]) := by
  rfl

/-- The loop of readdir over entries that are all listed without a fault: it emits one
name per entry, in order, and leaves `errno` and the global `data` as they were. -/
theorem readdir_loop_listed (env : Env) (path origpath : List Char) (cap : Nat)
    (entries : List (List Char × List Char × Stat)) :
    ∀ (s : Proc) (buf : List (List Char × Stat)),
      0 < s.data.discoverer →
      buf.length + entries.length ≤ cap →
      (∀ x ∈ entries,
        entry_listed env path origpath s.data.thresholdbitrate x.1 x.2.1 x.2.2) →
      ∃ s1, readdir_loop env (list_filler cap) path origpath (entries.map (fun x => x.1)) s buf =
          .ok (buf ++ entries.map (fun x => (x.2.1, x.2.2)), s1) ∧
        s1.errno = s.errno ∧ s1.data = s.data := by
  induction entries with
  | nil =>
    intro s buf _ _ _
    exact ⟨s, by simp [readdir_loop], rfl, rfl⟩
  | cons x rest ih =>
    intro s buf hlive hcap hall
    obtain ⟨hst, hname⟩ := hall x (List.mem_cons_self _ _)
    have hrest : ∀ y ∈ rest,
        entry_listed env path origpath s.data.thresholdbitrate y.1 y.2.1 y.2.2 :=
      fun y hy => hall y (List.mem_cons_of_mem _ hy)
    have hroom : buf.length < cap := by
      simp only [List.length_cons] at hcap
      omega
    have hcap2 : (buf ++ [(x.2.1, x.2.2)]).length + rest.length ≤ cap := by
      simp only [List.length_cons, List.length_append, List.length_nil] at hcap ⊢
      omega
    by_cases hreg : (S_ISREG x.2.2.st_mode || S_ISLNK x.2.2.st_mode) = true
    · rw [if_pos hreg] at hname
      have hconv := hname (s.log (.lstat (origfile_of origpath x.1))) hlive rfl
      obtain ⟨s1, hloop, herr, hdata⟩ :=
        ih ((s.log (.lstat (origfile_of origpath x.1))).log
          (.discover (full_path env.params path x.1))) (buf ++ [(x.2.1, x.2.2)])
          hlive hcap2 hrest
      refine ⟨s1, ?_, herr, hdata⟩
      simp only [List.map_cons, readdir_loop, lstat, hst, hreg, if_true, hconv, list_filler,
        hroom]
      rw [hloop]
      simp
    · rw [if_neg hreg] at hname
      obtain ⟨s1, hloop, herr, hdata⟩ :=
        ih (s.log (.lstat (origfile_of origpath x.1))) (buf ++ [(x.2.1, x.2.2)])
          hlive hcap2 hrest
      refine ⟨s1, ?_, herr, hdata⟩
      simp only [List.map_cons, readdir_loop, lstat, hst, hreg, list_filler, hroom]
      rw [← hname] at hloop ⊢
      simp only [Bool.false_eq_true, if_false, if_true]
      rw [hloop]
      simp

/-- On a directory whose entries are all listed without a fault and a filler with room
for them, readdir returns 0 and emits one name per entry in the order of the store. -/
theorem readdir_listed (env : Env) (s0 : Proc) (path : List Char) (cap : Nat)
    (entries : List (List Char × List Char × Stat))
    (hdir : env.opendir (translate_path env.params path) = .ok (entries.map (fun x => x.1)))
    (hlive : 0 < s0.data.discoverer)
    (hcap : entries.length ≤ cap)
    (hall : ∀ x ∈ entries, entry_listed env path (translate_path env.params path)
      s0.data.thresholdbitrate x.1 x.2.1 x.2.2) :
    ∃ s1, transcodefs_readdir env s0 path [] (list_filler cap) =
      .ok (0, entries.map (fun x => (x.2.1, x.2.2)), s1) := by
  obtain ⟨s1, hloop, herr, _⟩ :=
    readdir_loop_listed env path (translate_path env.params path) cap entries
      ((s0.set_errno 0).log (.opendir (translate_path env.params path))) []
      hlive (by simpa using hcap) hall
  refine ⟨s1, ?_⟩
  simp only [transcodefs_readdir, opendir, hdir, hloop, herr]
  simp

/-- C7, the code at the failing input: every entry of `/media/album` is found by `lstat`
and the filler has room, yet on the regular file `track`, whose name has no `.` and whose
probe reports 320 kbps against the threshold 256, `convert_path` copies `.opus` through
the NULL result of `strrchr`, and readdir does not return. -/
theorem C7_readdir_failing_input :
    env_album.opendir "/media/album".toList =
      .ok [".".toList, "..".toList, "track".toList] ∧
    (∀ name ∈ [".".toList, "..".toList, "track".toList],
      ∃ st, env_album.lstat (origfile_of "/media/album".toList name) = .ok st) ∧
    strrchr "track".toList '.' = none ∧
    convert_path env_album proc0 "track".toList 0 "/album".toList =
      .error .null_pointer_write ∧
    transcodefs_readdir env_album proc0 "/album".toList [] (list_filler 100) =
      .error .null_pointer_write := by
  refine ⟨by rfl, ?_, by rfl, by rfl, by rfl⟩
  intro name hname
  simp only [List.mem_cons, List.mem_singleton, List.not_mem_nil, or_false] at hname
  rcases hname with h | h | h
  · subst h
    exact ⟨_, by rfl⟩
  · subst h
    exact ⟨_, by rfl⟩
  · subst h
    exact ⟨_, by rfl⟩

/-! ## readlink -/

/-- C8, the code at the failing inputs: with `/media/a.flac` absent and `/media/a.mp3` a
readable symbolic link, `readlink("/a.opus")` fills the buffer with the link text and
returns `-ENOENT`, the error left by the `.flac` attempt; and with the literal path
`/media/l.opus` a readable symbolic link, `readlink("/l.opus")` looks up only the `.flac`
and `.mp3` names and returns `-ENOENT` with the buffer untouched. -/
theorem C8_readlink_failing_inputs :
    env_link_mp3.readlink "/media/a.mp3".toList 4094 = .ok "b.mp3".toList ∧
    transcodefs_readlink env_link_mp3 proc0 "/a.opus".toList [] 4096 =
      .ok (-2, "b.mp3".toList, ⟨2, proc0.data,
        [.readlink "/media/a.flac".toList 4094, .readlink "/media/a.mp3".toList 4094,
         .discover "file:///media/a.opus/b.mp3".toList]⟩) ∧
    env_link_literal.readlink "/media/l.opus".toList 4094 = .ok "x.opus".toList ∧
    transcodefs_readlink env_link_literal proc0 "/l.opus".toList [] 4096 =
      .ok (-2, [], ⟨2, proc0.data,
        [.readlink "/media/l.flac".toList 4094, .readlink "/media/l.mp3".toList 4094]⟩) :=
  ⟨by rfl, by rfl, by rfl, by rfl⟩

/-! ## open -/

/-- On a path whose extension has fewer than three characters and whose literal
translation does not exist, open writes the `.flac` rewrite past the end of the buffer
of `translate_path`. -/
theorem open_short_suffix (env : Env) (s0 : Proc) (stem e : List Char) (flags : Nat)
    (hdot : '.' ∉ e) (hlen : e.length < 3)
    (hlit : env.open_path (env.params.basepath ++ (stem ++ '.' :: e)) flags =
      .error .ENOENT) :
    transcodefs_open env s0 (stem ++ '.' :: e) flags = .error .buffer_overflow := by
  unfold transcodefs_open
  simp only [translate_path, sys_open, hlit, log_errno, set_errno_errno, Errno.code, ENOENT,
    ne_eq, not_true_eq_false, if_false, open_fallback,
    convert_origpath_short env _ stem e hdot hlen]

/-- The bytes reserved by `translate_path` hold the `.flac` rewrite, and the `.mp3` and
`.ogg` rewrites, of a path whose last suffix has at least three characters after the dot. -/
theorem capacity_of_long_suffix (params : transcodefs_params) (stem e : List Char)
    (hlen : 3 ≤ e.length) :
    (params.basepath ++ stem ++ ".flac".toList).length + 1 ≤
      translate_path_alloc params (stem ++ '.' :: e) ∧
    (params.basepath ++ stem ++ ".mp3".toList).length + 1 ≤
      translate_path_alloc params (stem ++ '.' :: e) ∧
    (params.basepath ++ stem ++ ".ogg".toList).length + 1 ≤
      translate_path_alloc params (stem ++ '.' :: e) := by
  have h5 : ".flac".toList.length = 5 := rfl
  have h4 : ".mp3".toList.length = 4 := rfl
  have h4o : ".ogg".toList.length = 4 := rfl
  simp only [translate_path_alloc, List.length_append, List.length_cons, h5, h4, h4o]
  omega

/-- C10, the code at the failing input: for the root `/media` and the virtual path
`/a.c`, `translate_path` reserves 12 bytes, and the `.flac` rewrite of the translated
path is 13 characters long, 14 bytes with its terminating NUL; the `.mp3` rewrite that
follows it on the same buffer needs 13 bytes, and the `.ogg` rewrite as many. -/
theorem C10_capacity_failing_input :
    translate_path_alloc env_song.params "/a.c".toList = 12 ∧
    convert_path env_song proc0 (translate_path env_song.params "/a.c".toList) 1
      "/a.c".toList = .ok ("/media/a.flac".toList, proc0) ∧
    ¬ ("/media/a.flac".toList.length + 1 ≤ translate_path_alloc env_song.params "/a.c".toList) ∧
    convert_path env_song proc0 "/media/a.flac".toList 2 "/a.c".toList =
      .ok ("/media/a.mp3".toList, proc0) ∧
    ¬ ("/media/a.mp3".toList.length + 1 ≤ translate_path_alloc env_song.params "/a.c".toList) ∧
    convert_path env_song proc0 (translate_path env_song.params "/a.c".toList) 3
      "/a.c".toList = .ok ("/media/a.ogg".toList, proc0) ∧
    ¬ ("/media/a.ogg".toList.length + 1 ≤ translate_path_alloc env_song.params "/a.c".toList) :=
  ⟨by rfl, by rfl, by decide, by rfl, by decide, by rfl, by decide⟩

end TranscodeFS
